import Mathlib

/-!
Verification of the wave-shoaling animation engine of the tsunami
visualization repository.  The definitions below are a shallow embedding of
the numeric model in src/components/WaveSimulation.tsx: the seabed profile
builder, the propagation timing model, the shoaling height model, and the
depth-to-pixel mapping.  JavaScript floating-point numbers are modelled by
real numbers; Math.sqrt is Real.sqrt; Math.pow is real exponentiation.
-/

namespace Tsunami

/-- Canvas width (`const width = 600`). -/
def width : ℝ := 600

/-- Canvas height (`const height = 300`). -/
def canvasHeight : ℝ := 300

/-- Sea level y-coordinate (`const seaLevel = 200`). -/
def seaLevel : ℝ := 200

/-- Shore x-coordinate (`const shoreX = width - 50`). -/
noncomputable def shoreX : ℝ := width - 50

/-- Longest horizontal run, gentle slope (`const maxRun = 500`). -/
def maxRun : ℝ := 500

/-- Shortest horizontal run, steep slope (`const minRun = 30`). -/
def minRun : ℝ := 30

/-- Horizontal run of the rising seabed section:
`run = maxRun - ((slope - 1) / 9) * (maxRun - minRun)`. -/
noncomputable def run (slope : ℝ) : ℝ :=
  maxRun - ((slope - 1) / 9) * (maxRun - minRun)

/-- X-coordinate where the seabed starts rising (`shelfKneeX = shoreX - run`). -/
noncomputable def shelfKneeX (slope : ℝ) : ℝ := shoreX - run slope

/-- Deepest visual depth in pixels (`const maxVisualDepthPx = 95`). -/
def maxVisualDepthPx : ℝ := 95

/-- Shallowest visual depth in pixels (`const minVisualDepthPx = 30`). -/
def minVisualDepthPx : ℝ := 30

/-- The depth-to-pixel mapping
`d3.scaleLinear().domain([10, 80]).range([30, 95]).clamp(true)`:
a linear interpolation from the domain to the range whose output is clamped,
which for an increasing linear scale is the same as clamping the input to
the domain before interpolating. -/
noncomputable def depthScale (d : ℝ) : ℝ :=
  minVisualDepthPx +
    (max 10 (min 80 d) - 10) / (80 - 10) * (maxVisualDepthPx - minVisualDepthPx)

/-- Pixel y-coordinate of the deep ocean floor
(`deepDepthY = seaLevel + depthScale(depth)`). -/
noncomputable def deepDepthY (depth : ℝ) : ℝ := seaLevel + depthScale depth

/-- Pixel y-coordinate of the seabed at the shore (`shoreDepthY = seaLevel`). -/
def shoreDepthY : ℝ := seaLevel

/-- Curve sharpness of the seabed profile
(`tension = 0.2 + ((slope - 1) / 9) * 0.7`). -/
noncomputable def tension (slope : ℝ) : ℝ := 0.2 + ((slope - 1) / 9) * 0.7

/-- X-coordinate of the control point of the quadratic seabed curve
(`cpX = shelfKneeX + run * tension`). -/
noncomputable def cpX (slope : ℝ) : ℝ := shelfKneeX slope + run slope * tension slope

/-- Y-coordinate of the control point of the quadratic seabed curve
(`cpY = deepDepthY`). -/
noncomputable def cpY (depth : ℝ) : ℝ := deepDepthY depth

/-- Y-coordinate of the quadratic seabed curve
`quadraticCurveTo(cpX, cpY, shoreX, shoreDepthY)` from `(shelfKneeX, deepDepthY)`,
as a quadratic Bezier evaluated at parameter `s` in `[0, 1]`. -/
noncomputable def bezierY (depth s : ℝ) : ℝ :=
  (1 - s) ^ 2 * deepDepthY depth + 2 * (1 - s) * s * cpY depth + s ^ 2 * shoreDepthY

/-- X-coordinate of the quadratic seabed curve, same parametrization. -/
noncomputable def bezierX (slope s : ℝ) : ℝ :=
  (1 - s) ^ 2 * shelfKneeX slope + 2 * (1 - s) * s * cpX slope + s ^ 2 * shoreX

/-- The deep-to-shore seabed path of `seabedPath`, parametrized by `u`:
the flat deep floor segment `moveTo(0, deepDepthY)`; `lineTo(shelfKneeX, deepDepthY)`
for `u` in `[0, 1]`, the quadratic curve to `(shoreX, shoreDepthY)` for `u` in
`[1, 2]`, and the first land segment `lineTo(shoreX + 50, shoreDepthY - 20)` for
`u` in `[2, 3]`. -/
noncomputable def seabedY (depth u : ℝ) : ℝ :=
  if u ≤ 1 then deepDepthY depth
  else if u ≤ 2 then bezierY depth (u - 1)
  else shoreDepthY - 20 * (u - 2)

/-- Base wave amplitude (`waveAmp = intensity * 3 * visualGain`). -/
noncomputable def waveAmp (intensity visualGain : ℝ) : ℝ := intensity * 3 * visualGain

/-- Distance covered in the deep regime (`deepDist = Math.max(0, shelfKneeX)`). -/
noncomputable def deepDist (slope : ℝ) : ℝ := max 0 (shelfKneeX slope)

/-- Distance covered on the slope (`slopeDist = shoreX - deepDist`). -/
noncomputable def slopeDist (slope : ℝ) : ℝ := shoreX - deepDist slope

/-- Baseline deep-water speed (`const baseSpeed = 0.6`). -/
def baseSpeed : ℝ := 0.6

/-- Depth-normalized speed factor (`speedFactor = Math.sqrt(depth / 40)`). -/
noncomputable def speedFactor (depth : ℝ) : ℝ := Real.sqrt (depth / 40)

/-- Deep-water propagation speed (`speedDeep = baseSpeed * speedFactor`). -/
noncomputable def speedDeep (depth : ℝ) : ℝ := baseSpeed * speedFactor depth

/-- Average speed on the slope (`const speedSlopeAvg = 0.2`). -/
def speedSlopeAvg : ℝ := 0.2

/-- Time units to cross the deep section (`timeDeep = deepDist / speedDeep`). -/
noncomputable def timeDeep (slope depth : ℝ) : ℝ := deepDist slope / speedDeep depth

/-- Time units to cross the slope section (`timeSlope = slopeDist / speedSlopeAvg`). -/
noncomputable def timeSlope (slope : ℝ) : ℝ := slopeDist slope / speedSlopeAvg

/-- Total virtual time units (`totalTimeUnits = timeDeep + timeSlope`). -/
noncomputable def totalTimeUnits (slope depth : ℝ) : ℝ :=
  timeDeep slope depth + timeSlope slope

/-- The position part of `calculateWavePosition`: maps linear time `t` in `[0, 1]`
to the wave x-position, piecewise linear over the two speed regimes, then
clamped to the shore (`if (currentX > shoreX) currentX = shoreX`). -/
noncomputable def positionAt (slope depth t : ℝ) : ℝ :=
  let currentVirtualTime := t * totalTimeUnits slope depth
  let currentX :=
    if currentVirtualTime < timeDeep slope depth then
      currentVirtualTime * speedDeep depth
    else
      deepDist slope + (currentVirtualTime - timeDeep slope depth) * speedSlopeAvg
  if currentX > shoreX then shoreX else currentX

/-- The pre-clamp position `currentX` of `calculateWavePosition` as a function
of the virtual time `currentVirtualTime`, before the shore clamp. -/
noncomputable def rawPositionAt (slope depth vt : ℝ) : ℝ :=
  if vt < timeDeep slope depth then vt * speedDeep depth
  else deepDist slope + (vt - timeDeep slope depth) * speedSlopeAvg

/-- The depth ratio of the shoaling model: `1` at or before the shelf knee,
otherwise `1 - progressOnSlope ^ (1 + tension * 1.5)` floored at `0.1`
(`if (currentDepthRatio < 0.1) currentDepthRatio = 0.1`). -/
noncomputable def currentDepthRatio (slope x : ℝ) : ℝ :=
  if x > shelfKneeX slope then
    let progressOnSlope := (x - shelfKneeX slope) / (shoreX - shelfKneeX slope)
    let power := 1 + tension slope * 1.5
    let adjustedProgress := progressOnSlope ^ power
    let r := 1 - adjustedProgress
    if r < 0.1 then 0.1 else r
  else 1

/-- The Greens-law amplification factor `(1 / currentDepthRatio) ^ 0.25`,
reduced by the steep-slope correction `* (1 - (slope - 6) * 0.15)` when
`slope > 6`. -/
noncomputable def shoalingFactor (slope x : ℝ) : ℝ :=
  let sf := (1 / currentDepthRatio slope x) ^ (0.25 : ℝ)
  if slope > 6 then sf * (1 - (slope - 6) * 0.15) else sf

/-- The height part of `calculateWavePosition`:
`currentHeight = waveAmp * shoalingFactor`, evaluated at position `x`. -/
noncomputable def heightAt (slope intensity visualGain x : ℝ) : ℝ :=
  waveAmp intensity visualGain * shoalingFactor slope x

/-- `calculateWavePosition(t)` returning `{ currentX, currentHeight }`. -/
noncomputable def calculateWavePosition (slope intensity depth visualGain t : ℝ) :
    ℝ × ℝ :=
  let currentX := positionAt slope depth t
  (currentX, heightAt slope intensity visualGain currentX)

/-- The props record of the WaveSimulation component; `recommendedHeight` is
the optional field fed by the external analysis result. -/
structure WaveSimulationProps where
  slope : ℝ
  intensity : ℝ
  depth : ℝ
  recommendedHeight : Option ℝ

/-- The physics outputs of one sample of the animation for a given props
record, visual gain and sample time: exactly `calculateWavePosition`, which is
built from `slope`, `intensity`, `depth` and `visualGain` only. -/
noncomputable def physicsAt (p : WaveSimulationProps) (visualGain t : ℝ) : ℝ × ℝ :=
  calculateWavePosition p.slope p.intensity p.depth visualGain t

/-- Seawall overlay pixel height: `recommendedHeight && recommendedHeight > 0 ?
recommendedHeight * 5 : 30`. -/
noncomputable def seawallPixelHeight (recommendedHeight : Option ℝ) : ℝ :=
  match recommendedHeight with
  | some h => if h > 0 then h * 5 else 30
  | none => 30

/-! ## Basic facts about the geometry -/

/-- `run` in closed linear form. -/
theorem run_eq (slope : ℝ) : run slope = 500 - (slope - 1) * (470 / 9) := by
  simp only [run, maxRun, minRun]
  ring

/-- `shelfKneeX` in closed linear form. -/
theorem shelfKneeX_eq (slope : ℝ) :
    shelfKneeX slope = 50 + (slope - 1) * (470 / 9) := by
  simp only [shelfKneeX, shoreX, width, run_eq]
  ring

/-- For slope at most 10 the run is at least 30 pixels. -/
theorem run_ge (slope : ℝ) (h : slope ≤ 10) : 30 ≤ run slope := by
  rw [run_eq]; linarith

/-- For slope at least 1 the shelf knee is at least 50 pixels offshore. -/
theorem shelfKneeX_ge (slope : ℝ) (h : 1 ≤ slope) : 50 ≤ shelfKneeX slope := by
  rw [shelfKneeX_eq]; linarith

/-- The shelf knee stays strictly offshore of the shore for slope at most 10. -/
theorem shelfKneeX_lt_shoreX (slope : ℝ) (h : slope ≤ 10) :
    shelfKneeX slope < shoreX := by
  have h30 := run_ge slope h
  simp only [shelfKneeX, shoreX, width] at *
  linarith

/-! ## C1: monotonicity of `shelfKneeX` in slope -/

/-- C1 counterexample: the claim says `shelfKneeX` strictly decreases as slope
increases, but already from slope 1 to slope 2 (both in `[1, 10]`) the value
moves from 50 to 50 + 470/9, i.e. it increases, so it does not decrease. -/
theorem C1_counterexample :
    (1 : ℝ) < 2 ∧ ¬ shelfKneeX 2 < shelfKneeX 1 := by
  constructor
  · norm_num
  · rw [shelfKneeX_eq, shelfKneeX_eq]
    norm_num

/-- C1 (amended): for slope in `[1, 10]`, `shelfKneeX` strictly increases as
slope increases (the run `shoreX - shelfKneeX` strictly decreases, so the knee
moves toward the shore). -/
theorem C1_shelfKneeX_strictMono (s1 s2 : ℝ)
    (h1 : 1 ≤ s1) (h2 : s2 ≤ 10) (h12 : s1 < s2) :
    shelfKneeX s1 < shelfKneeX s2 ∧ run s2 < run s1 := by
  rw [shelfKneeX_eq, shelfKneeX_eq, run_eq, run_eq]
  constructor <;> nlinarith

/-- C1 witness: the amended statement at slope 1 versus slope 2. -/
theorem C1_witness : shelfKneeX 1 < shelfKneeX 2 ∧ run 2 < run 1 :=
  C1_shelfKneeX_strictMono 1 2 (by norm_num) (by norm_num) (by norm_num)

/-- The clamped depth-to-pixel value always lies in `[30, 95]`. -/
theorem depthScale_mem (d : ℝ) : 30 ≤ depthScale d ∧ depthScale d ≤ 95 := by
  have hc1 : (10 : ℝ) ≤ max 10 (min 80 d) := le_max_left _ _
  have hc2 : max 10 (min 80 d) ≤ 80 :=
    max_le (by norm_num) (min_le_left _ _)
  simp only [depthScale, minVisualDepthPx, maxVisualDepthPx]
  constructor <;> nlinarith

/-- The depth ratio never drops below the floor `0.1`, whatever the position. -/
theorem currentDepthRatio_ge (slope x : ℝ) :
    (0.1 : ℝ) ≤ currentDepthRatio slope x := by
  unfold currentDepthRatio
  split_ifs with h1
  · dsimp only
    split_ifs with h2
    · norm_num
    · linarith [not_lt.mp h2]
  · norm_num

/-- For slope at most 10 the depth ratio never exceeds 1. -/
theorem currentDepthRatio_le_one (slope x : ℝ) (hs : slope ≤ 10) :
    currentDepthRatio slope x ≤ 1 := by
  unfold currentDepthRatio
  split_ifs with h1
  · have hrun : (0 : ℝ) < shoreX - shelfKneeX slope := by
      have := shelfKneeX_lt_shoreX slope hs
      linarith
    have hprog : (0 : ℝ) ≤ (x - shelfKneeX slope) / (shoreX - shelfKneeX slope) :=
      div_nonneg (by linarith) (le_of_lt hrun)
    have hadj := Real.rpow_nonneg hprog (1 + tension slope * 1.5)
    dsimp only
    split_ifs with h2
    · norm_num
    · linarith
  · norm_num

/-! ## C7: deep-water speed ratio between depth 10 and depth 80 -/

/-- C7: with `speedDeep = 0.6 * sqrt(depth / 40)`, the ratio of the deep-water
speeds at depth 10 and depth 80 equals `sqrt(10/40) / sqrt(80/40)`, and its
square is exactly `1 / 8`. -/
theorem C7_speedDeep_ratio :
    speedDeep 10 / speedDeep 80 = Real.sqrt (10 / 40) / Real.sqrt (80 / 40) ∧
      (speedDeep 10 / speedDeep 80) ^ 2 = 1 / 8 := by
  have h2 : Real.sqrt (80 / 40) ≠ 0 := by
    rw [Real.sqrt_ne_zero] <;> norm_num
  have hratio : speedDeep 10 / speedDeep 80 =
      Real.sqrt (10 / 40) / Real.sqrt (80 / 40) := by
    simp only [speedDeep, speedFactor, baseSpeed]
    rw [mul_div_mul_left _ _ (by norm_num : (0.6 : ℝ) ≠ 0)]
  refine ⟨hratio, ?_⟩
  rw [hratio, div_pow, Real.sq_sqrt (by norm_num : (0 : ℝ) ≤ 10 / 40),
    Real.sq_sqrt (by norm_num : (0 : ℝ) ≤ 80 / 40)]
  norm_num

/-! ## C2: gentle slope amplifies more than steep slope -/

/-- The quarter power of 10 lies strictly below 20/11. -/
theorem rpow_quarter_ten_lt : (10 : ℝ) ^ (0.25 : ℝ) < 20 / 11 := by
  have h4 : ((10 : ℝ) ^ (0.25 : ℝ)) ^ (4 : ℕ) = 10 := by
    rw [← Real.rpow_natCast ((10 : ℝ) ^ (0.25 : ℝ)) 4,
      ← Real.rpow_mul (by norm_num : (0 : ℝ) ≤ 10)]
    push_cast
    rw [show (0.25 * 4 : ℝ) = 1 by norm_num, Real.rpow_one]
  have hlt : ((10 : ℝ) ^ (0.25 : ℝ)) ^ (4 : ℕ) < (20 / 11 : ℝ) ^ (4 : ℕ) := by
    rw [h4]; norm_num
  exact lt_of_pow_lt_pow_left₀ 4 (by norm_num) hlt

/-- C2: for fixed intensity, depth and visual gain, at every position past both
shelf knees and at most the shore, the wave height of the gentle profile
(slope 2) strictly exceeds that of the steep profile (slope 9), each computed
with its own knee and tension, including the steep-slope correction. -/
theorem C2_gentle_exceeds_steep (intensity visualGain x : ℝ)
    (hi : 1 ≤ intensity) (hg : 1 / 2 ≤ visualGain)
    (hx2 : shelfKneeX 2 < x) (hx9 : shelfKneeX 9 < x) (hxs : x ≤ shoreX) :
    heightAt 9 intensity visualGain x < heightAt 2 intensity visualGain x := by
  have hamp : (0 : ℝ) < waveAmp intensity visualGain := by
    simp only [waveAmp]; nlinarith
  have h2ge := currentDepthRatio_ge 2 x
  have h2le := currentDepthRatio_le_one 2 x (by norm_num)
  have h9ge := currentDepthRatio_ge 9 x
  have h2pos : (0 : ℝ) < currentDepthRatio 2 x := by linarith
  have h9pos : (0 : ℝ) < currentDepthRatio 9 x := by linarith
  have hsf2 : (1 : ℝ) ≤ shoalingFactor 2 x := by
    unfold shoalingFactor
    dsimp only
    rw [if_neg (by norm_num : ¬ (2 : ℝ) > 6)]
    have hbase : (1 : ℝ) ≤ 1 / currentDepthRatio 2 x := by
      rw [le_div_iff₀ h2pos]; linarith
    calc (1 : ℝ) = (1 : ℝ) ^ (0.25 : ℝ) := (Real.one_rpow _).symm
      _ ≤ (1 / currentDepthRatio 2 x) ^ (0.25 : ℝ) :=
          Real.rpow_le_rpow (by norm_num) hbase (by norm_num)
  have hsf9 : shoalingFactor 9 x < 1 := by
    unfold shoalingFactor
    dsimp only
    rw [if_pos (by norm_num : (9 : ℝ) > 6)]
    have hbase : 1 / currentDepthRatio 9 x ≤ 10 := by
      rw [div_le_iff₀ h9pos]; linarith
    have hpow : (1 / currentDepthRatio 9 x) ^ (0.25 : ℝ) ≤ (10 : ℝ) ^ (0.25 : ℝ) :=
      Real.rpow_le_rpow (by positivity) hbase (by norm_num)
    have hlt : (1 / currentDepthRatio 9 x) ^ (0.25 : ℝ) < 20 / 11 :=
      lt_of_le_of_lt hpow rpow_quarter_ten_lt
    have hnn : (0 : ℝ) ≤ (1 / currentDepthRatio 9 x) ^ (0.25 : ℝ) :=
      Real.rpow_nonneg (by positivity) _
    linarith
  simp only [heightAt]
  calc waveAmp intensity visualGain * shoalingFactor 9 x
      < waveAmp intensity visualGain * 1 := by nlinarith
    _ ≤ waveAmp intensity visualGain * shoalingFactor 2 x := by nlinarith

/-- C2 witness: intensity 5, visual gain 1, position 500 (past both knees). -/
theorem C2_witness : heightAt 9 5 1 500 < heightAt 2 5 1 500 :=
  C2_gentle_exceeds_steep 5 1 500 (by norm_num) (by norm_num)
    (by rw [shelfKneeX_eq]; norm_num) (by rw [shelfKneeX_eq]; norm_num)
    (by simp only [shoreX, width]; norm_num)

/-! ## C3: the time-to-position mapping -/

/-- The deep-water speed is positive for positive depth. -/
theorem speedDeep_pos (depth : ℝ) (hd : 0 < depth) : 0 < speedDeep depth := by
  have h := Real.sqrt_pos.mpr (show (0 : ℝ) < depth / 40 by positivity)
  simp only [speedDeep, speedFactor, baseSpeed]
  nlinarith

/-- `positionAt` is the pre-clamp position capped at the shore. -/
theorem positionAt_eq_min (slope depth t : ℝ) :
    positionAt slope depth t =
      min (rawPositionAt slope depth (t * totalTimeUnits slope depth)) shoreX := by
  simp only [positionAt, rawPositionAt]
  set cx := if t * totalTimeUnits slope depth < timeDeep slope depth then
      t * totalTimeUnits slope depth * speedDeep depth
    else
      deepDist slope +
        (t * totalTimeUnits slope depth - timeDeep slope depth) * speedSlopeAvg
    with hcx
  split_ifs with h
  · exact (min_eq_right (le_of_lt h)).symm
  · exact (min_eq_left (not_lt.mp h)).symm

/-- The pre-clamp position is monotone in virtual time. -/
theorem rawPositionAt_mono (slope depth v1 v2 : ℝ) (hs1 : 1 ≤ slope)
    (hd1 : 0 < depth) (h12 : v1 ≤ v2) :
    rawPositionAt slope depth v1 ≤ rawPositionAt slope depth v2 := by
  have hsd : 0 < speedDeep depth := speedDeep_pos depth hd1
  have hkey : timeDeep slope depth * speedDeep depth = deepDist slope :=
    div_mul_cancel₀ _ (ne_of_gt hsd)
  unfold rawPositionAt
  rcases lt_or_le v1 (timeDeep slope depth) with hc1 | hc1 <;>
    rcases lt_or_le v2 (timeDeep slope depth) with hc2 | hc2
  · rw [if_pos hc1, if_pos hc2]
    exact mul_le_mul_of_nonneg_right h12 (le_of_lt hsd)
  · rw [if_pos hc1, if_neg (not_lt.mpr hc2)]
    have ha : v1 * speedDeep depth ≤ timeDeep slope depth * speedDeep depth :=
      mul_le_mul_of_nonneg_right (le_of_lt hc1) (le_of_lt hsd)
    have hb : (0 : ℝ) ≤ (v2 - timeDeep slope depth) * speedSlopeAvg :=
      mul_nonneg (by linarith) (by norm_num [speedSlopeAvg])
    linarith
  · exact absurd (lt_of_le_of_lt h12 hc2) (not_lt.mpr hc1)
  · rw [if_neg (not_lt.mpr hc1), if_neg (not_lt.mpr hc2)]
    have : (v1 - timeDeep slope depth) * speedSlopeAvg ≤
        (v2 - timeDeep slope depth) * speedSlopeAvg :=
      mul_le_mul_of_nonneg_right (by linarith) (by norm_num [speedSlopeAvg])
    linarith

/-- C3: for slope in `[1, 10]` and depth in `[10, 80]`, the time-to-position
mapping starts at 0, reaches exactly the shore at `t = 1`, is monotonically
non-decreasing over `[0, 1]`, and never exceeds the shore clamp. -/
theorem C3_positionAt_props (slope depth : ℝ)
    (hs1 : 1 ≤ slope) (hs2 : slope ≤ 10) (hd1 : 10 ≤ depth) (hd2 : depth ≤ 80) :
    positionAt slope depth 0 = 0 ∧
      positionAt slope depth 1 = shoreX ∧
      (∀ t1 t2, 0 ≤ t1 → t1 ≤ t2 → t2 ≤ 1 →
        positionAt slope depth t1 ≤ positionAt slope depth t2) ∧
      (∀ t, positionAt slope depth t ≤ shoreX) := by
  have hsd : 0 < speedDeep depth := speedDeep_pos depth (by linarith)
  have hknee := shelfKneeX_ge slope hs1
  have hdd : deepDist slope = shelfKneeX slope := max_eq_right (by linarith)
  have hddpos : 0 < deepDist slope := by rw [hdd]; linarith
  have htd : 0 < timeDeep slope depth := div_pos hddpos hsd
  have hrun := run_ge slope hs2
  have hsD : slopeDist slope = run slope := by
    simp only [slopeDist, hdd, shelfKneeX]; ring
  have hts : 0 < timeSlope slope := by
    rw [timeSlope, hsD]
    exact div_pos (by linarith) (by norm_num [speedSlopeAvg])
  have hkey2 : timeSlope slope * speedSlopeAvg = slopeDist slope :=
    div_mul_cancel₀ _ (by norm_num [speedSlopeAvg])
  have h0 : positionAt slope depth 0 = 0 := by
    rw [positionAt_eq_min, zero_mul]
    unfold rawPositionAt
    rw [if_pos htd, zero_mul]
    exact min_eq_left (by simp only [shoreX, width]; norm_num)
  have h1 : positionAt slope depth 1 = shoreX := by
    rw [positionAt_eq_min, one_mul]
    unfold rawPositionAt
    rw [if_neg (by simp only [totalTimeUnits]; linarith)]
    have hx : deepDist slope +
        (totalTimeUnits slope depth - timeDeep slope depth) * speedSlopeAvg = shoreX := by
      simp only [totalTimeUnits]
      rw [add_sub_cancel_left, hkey2]
      simp only [slopeDist]; ring
    rw [hx]
    exact min_self shoreX
  have hT : 0 ≤ totalTimeUnits slope depth := by
    simp only [totalTimeUnits]; linarith
  refine ⟨h0, h1, ?_, ?_⟩
  · intro t1 t2 h01 h12 h21
    rw [positionAt_eq_min, positionAt_eq_min]
    exact min_le_min
      (rawPositionAt_mono slope depth _ _ hs1 (by linarith)
        (mul_le_mul_of_nonneg_right h12 hT)) le_rfl
  · intro t
    rw [positionAt_eq_min]
    exact min_le_right _ _

/-- C3 witness: slope 2, depth 40 — the mapping starts at 0, ends at the
shore, and stays below the shore at the midpoint sample. -/
theorem C3_witness :
    positionAt 2 40 0 = 0 ∧ positionAt 2 40 1 = shoreX ∧
      positionAt 2 40 (1 / 2) ≤ shoreX := by
  have h := C3_positionAt_props 2 40 (by norm_num) (by norm_num) (by norm_num)
    (by norm_num)
  exact ⟨h.1, h.2.1, h.2.2.2 (1 / 2)⟩

/-! ## C4: continuity and monotonicity of the seabed profile -/

/-- The seabed curve starts at the deep floor depth: no jump at the shelf knee. -/
theorem bezierY_zero (depth : ℝ) : bezierY depth 0 = deepDepthY depth := by
  simp only [bezierY, cpY]
  ring

/-- The seabed curve ends at the shore depth: no jump at the shore. -/
theorem bezierY_one (depth : ℝ) : bezierY depth 1 = shoreDepthY := by
  simp only [bezierY, cpY]
  ring

/-- The seabed curve starts at the shelf knee x-coordinate. -/
theorem bezierX_zero (slope : ℝ) : bezierX slope 0 = shelfKneeX slope := by
  simp only [bezierX, cpX]
  ring

/-- The seabed curve ends at the shore x-coordinate. -/
theorem bezierX_one (slope : ℝ) : bezierX slope 1 = shoreX := by
  simp only [bezierX, cpX]
  ring

/-- The tension stays in `[0.2, 0.9]` for slope in `[1, 10]`. -/
theorem tension_mem (slope : ℝ) (hs1 : 1 ≤ slope) (hs2 : slope ≤ 10) :
    (0.2 : ℝ) ≤ tension slope ∧ tension slope ≤ 0.9 := by
  simp only [tension]
  constructor <;> linarith

/-- Along the seabed curve the depth-pixel value moves monotonically from the
deep floor toward the shore depth and never oscillates back. -/
theorem bezierY_antitone (depth s1 s2 : ℝ)
    (h0 : 0 ≤ s1) (h12 : s1 ≤ s2) (h2 : s2 ≤ 1) :
    bezierY depth s2 ≤ bezierY depth s1 := by
  have hds := (depthScale_mem depth).1
  have hkey : bezierY depth s1 - bezierY depth s2 =
      (s2 ^ 2 - s1 ^ 2) * depthScale depth := by
    simp only [bezierY, cpY, deepDepthY, shoreDepthY, seaLevel]
    ring
  have hsq : s1 ^ 2 ≤ s2 ^ 2 := by nlinarith
  nlinarith

/-- The x-coordinate of the seabed curve is strictly increasing toward the
shore, so the curve is the graph of a function of x. -/
theorem bezierX_strictMono (slope s1 s2 : ℝ) (hs1 : 1 ≤ slope) (hs2 : slope ≤ 10)
    (h0 : 0 ≤ s1) (h12 : s1 < s2) (h2 : s2 ≤ 1) :
    bezierX slope s1 < bezierX slope s2 := by
  have hr : 30 ≤ run slope := run_ge slope hs2
  obtain ⟨ht1, ht2⟩ := tension_mem slope hs1 hs2
  have hσ : 0 < s1 + s2 := by linarith
  have hF : 0 < 2 * tension slope * (1 - s1 - s2) + (s1 + s2) := by
    nlinarith [mul_nonneg (show (0 : ℝ) ≤ 2 - (s1 + s2) by linarith)
        (show (0 : ℝ) ≤ 2 * tension slope by linarith),
      mul_pos hσ (show (0 : ℝ) < 2 - 2 * tension slope by linarith)]
  have hkey : bezierX slope s2 - bezierX slope s1 =
      run slope * ((s2 - s1) * (2 * tension slope * (1 - s1 - s2) + (s1 + s2))) := by
    simp only [bezierX, cpX, shelfKneeX]
    ring
  nlinarith [mul_pos (show (0 : ℝ) < run slope by linarith)
    (mul_pos (show (0 : ℝ) < s2 - s1 by linarith) hF)]

/-- The parametrized deep-to-shore seabed path is continuous: in particular
there is no jump at the shelf knee nor at the shore. -/
theorem seabedY_continuous (depth : ℝ) : Continuous (seabedY depth) := by
  have hbez : Continuous fun u : ℝ => bezierY depth (u - 1) := by
    simp only [bezierY, cpY]
    continuity
  have hline : Continuous fun u : ℝ => shoreDepthY - 20 * (u - 2) := by
    continuity
  have hinner : Continuous fun u : ℝ =>
      if u ≤ 2 then bezierY depth (u - 1) else shoreDepthY - 20 * (u - 2) := by
    refine Continuous.if_le hbez hline continuous_id continuous_const ?_
    intro u hu
    rw [hu]
    rw [show (2 : ℝ) - 1 = 1 by norm_num, bezierY_one]
    norm_num
  unfold seabedY
  refine Continuous.if_le continuous_const hinner continuous_id continuous_const ?_
  intro u hu
  rw [hu]
  rw [if_pos (by norm_num : (1 : ℝ) ≤ 2)]
  rw [show (1 : ℝ) - 1 = 0 by norm_num, bezierY_zero]

/-- The full deep-to-shore path (flat floor then curve) never moves away from
the shore depth and back: it is monotone along the whole parametrization. -/
theorem seabedY_antitone (depth u1 u2 : ℝ)
    (h0 : 0 ≤ u1) (h12 : u1 ≤ u2) (h2 : u2 ≤ 2) :
    seabedY depth u2 ≤ seabedY depth u1 := by
  unfold seabedY
  rcases le_or_lt u1 1 with hu1 | hu1 <;> rcases le_or_lt u2 1 with hu2 | hu2
  · rw [if_pos hu1, if_pos hu2]
  · rw [if_pos hu1, if_neg (not_le.mpr hu2), if_pos (by linarith)]
    calc bezierY depth (u2 - 1) ≤ bezierY depth 0 :=
          bezierY_antitone depth 0 (u2 - 1) le_rfl (by linarith) (by linarith)
      _ = deepDepthY depth := bezierY_zero depth
  · linarith
  · rw [if_neg (not_le.mpr hu1), if_neg (not_le.mpr hu2),
      if_pos (by linarith : u1 ≤ 2), if_pos (by linarith : u2 ≤ 2)]
    exact bezierY_antitone depth (u1 - 1) (u2 - 1) (by linarith) (by linarith)
      (by linarith)

/-- C4: for slope in `[1, 10]` and depth in `[10, 80]`, the seabed profile is
continuous at the shelf knee and at the shore (the curve starts at
`(shelfKneeX, deepDepthY)` and ends at `(shoreX, shoreDepthY)`, and the whole
parametrized path is continuous), and it is monotone from deep to shore with
no oscillation; moreover the curve is traversed with strictly increasing x. -/
theorem C4_seabed_profile (slope depth : ℝ)
    (hs1 : 1 ≤ slope) (hs2 : slope ≤ 10) (hd1 : 10 ≤ depth) (hd2 : depth ≤ 80) :
    bezierY depth 0 = deepDepthY depth ∧
      bezierY depth 1 = shoreDepthY ∧
      bezierX slope 0 = shelfKneeX slope ∧
      bezierX slope 1 = shoreX ∧
      Continuous (seabedY depth) ∧
      (∀ u1 u2, 0 ≤ u1 → u1 ≤ u2 → u2 ≤ 2 →
        seabedY depth u2 ≤ seabedY depth u1) ∧
      (∀ s1 s2, 0 ≤ s1 → s1 < s2 → s2 ≤ 1 →
        bezierX slope s1 < bezierX slope s2) :=
  ⟨bezierY_zero depth, bezierY_one depth, bezierX_zero slope, bezierX_one slope,
    seabedY_continuous depth,
    fun u1 u2 h0 h12 h2 => seabedY_antitone depth u1 u2 h0 h12 h2,
    fun s1 s2 h0 h12 h2 => bezierX_strictMono slope s1 s2 hs1 hs2 h0 h12 h2⟩

/-- C4 witness: slope 5, depth 40 — junction values match and the path is
continuous and monotone between two sample parameters. -/
theorem C4_witness :
    bezierY 40 0 = deepDepthY 40 ∧ bezierY 40 1 = shoreDepthY ∧
      Continuous (seabedY 40) ∧ seabedY 40 2 ≤ seabedY 40 0 ∧
      bezierX 5 0 < bezierX 5 1 := by
  have h := C4_seabed_profile 5 40 (by norm_num) (by norm_num) (by norm_num)
    (by norm_num)
  exact ⟨h.1, h.2.1, h.2.2.2.2.1,
    h.2.2.2.2.2.1 0 2 (by norm_num) (by norm_num) (by norm_num),
    h.2.2.2.2.2.2 0 1 (by norm_num) (by norm_num) (by norm_num)⟩

/-! ## C5: the depth-ratio floor -/

/-- C5: for slope in `[1, 10]`, depth in `[10, 80]` and any position `x` in
`[shelfKneeX, shoreX]`, the depth ratio computed by the shoaling model is at
least `0.1`, so `1 / currentDepthRatio` never divides by a value below `0.1`. -/
theorem C5_depthRatio_floor (slope depth x : ℝ)
    (hs1 : 1 ≤ slope) (hs2 : slope ≤ 10) (hd1 : 10 ≤ depth) (hd2 : depth ≤ 80)
    (hx1 : shelfKneeX slope ≤ x) (hx2 : x ≤ shoreX) :
    (0.1 : ℝ) ≤ currentDepthRatio slope x :=
  currentDepthRatio_ge slope x

/-- C5 witness: slope 5, depth 40, x = 500 (between the knee and the shore). -/
theorem C5_witness : (0.1 : ℝ) ≤ currentDepthRatio 5 500 :=
  C5_depthRatio_floor 5 40 500 (by norm_num) (by norm_num) (by norm_num)
    (by norm_num) (by rw [shelfKneeX_eq]; norm_num)
    (by simp only [shoreX, width]; norm_num)

/-! ## C6: steep-slope damping applies already in deep water -/

/-- C6: for slope above 6 and a position at or before the shelf knee, where the
depth ratio is 1 and the raw Greens-law factor is 1, the computed height equals
`waveAmp * (1 - (slope - 6) * 0.15)`, which is strictly below the base
amplitude `waveAmp = intensity * 3 * visualGain`: the steep-slope damping acts
even before any shoaling begins. -/
theorem C6_steep_damping_before_knee (slope intensity visualGain x : ℝ)
    (hs : 6 < slope) (hi : 1 ≤ intensity) (hg : 1 / 2 ≤ visualGain)
    (hx : x ≤ shelfKneeX slope) :
    heightAt slope intensity visualGain x
        = waveAmp intensity visualGain * (1 - (slope - 6) * 0.15) ∧
      heightAt slope intensity visualGain x < waveAmp intensity visualGain := by
  have hamp : (0 : ℝ) < waveAmp intensity visualGain := by
    simp only [waveAmp]; nlinarith
  have hcdr : currentDepthRatio slope x = 1 := by
    unfold currentDepthRatio
    rw [if_neg (not_lt.mpr hx)]
  have hsf : shoalingFactor slope x = 1 - (slope - 6) * 0.15 := by
    unfold shoalingFactor
    rw [hcdr, if_pos hs]
    norm_num
  constructor
  · simp only [heightAt, hsf]
  · simp only [heightAt, hsf]
    nlinarith

/-- C6 witness: slope 8, intensity 5, visual gain 1, position 0 (in front of
the shelf knee). -/
theorem C6_witness :
    heightAt 8 5 1 0 = waveAmp 5 1 * (1 - (8 - 6) * 0.15) ∧
      heightAt 8 5 1 0 < waveAmp 5 1 :=
  C6_steep_damping_before_knee 8 5 1 0 (by norm_num) (by norm_num) (by norm_num)
    (by rw [shelfKneeX_eq]; norm_num)

/-! ## C8: recommendedHeight does not interfere with the physics -/

/-- C8: two runs that differ only in `recommendedHeight` (same slope,
intensity, depth, visual gain and sample time) produce identical physics
outputs `(currentX, currentHeight)`: `recommendedHeight` feeds only the
seawall overlay, never `calculateWavePosition`. -/
theorem C8_recommendedHeight_noninterference (p1 p2 : WaveSimulationProps)
    (visualGain t : ℝ) (hs : p1.slope = p2.slope) (hi : p1.intensity = p2.intensity)
    (hd : p1.depth = p2.depth) :
    physicsAt p1 visualGain t = physicsAt p2 visualGain t := by
  simp only [physicsAt, hs, hi, hd]

/-- C8 witness: same inputs with `recommendedHeight` absent versus set to 7. -/
theorem C8_witness :
    physicsAt ⟨2, 5, 40, none⟩ 1 0 = physicsAt ⟨2, 5, 40, some 7⟩ 1 0 :=
  C8_recommendedHeight_noninterference ⟨2, 5, 40, none⟩ ⟨2, 5, 40, some 7⟩ 1 0
    rfl rfl rfl

/-! ## C9: out-of-range depth saturates -/

/-- C9: the depth-to-pixel mapping saturates outside `[10, 80]`: any depth
below 10 maps to the value at depth 10 (30 px), any depth above 80 maps to the
value at depth 80 (95 px), and `deepDepthY` always stays within
`[seaLevel + 30, seaLevel + 95]`. -/
theorem C9_depthScale_saturates (d : ℝ) :
    (d < 10 → depthScale d = 30) ∧ (80 < d → depthScale d = 95) ∧
      depthScale 10 = 30 ∧ depthScale 80 = 95 ∧
      seaLevel + 30 ≤ deepDepthY d ∧ deepDepthY d ≤ seaLevel + 95 := by
  refine ⟨?_, ?_, ?_, ?_, ?_, ?_⟩
  · intro hd
    have hmin : min 80 d = d := min_eq_right (by linarith)
    have hmax : max 10 (min 80 d) = 10 := by rw [hmin]; exact max_eq_left (by linarith)
    simp only [depthScale, hmax, minVisualDepthPx, maxVisualDepthPx]
    norm_num
  · intro hd
    have hmin : min 80 d = 80 := min_eq_left (by linarith)
    have hmax : max 10 (min 80 d) = 80 := by rw [hmin]; norm_num
    simp only [depthScale, hmax, minVisualDepthPx, maxVisualDepthPx]
    norm_num
  · simp only [depthScale, minVisualDepthPx, maxVisualDepthPx]
    norm_num
  · simp only [depthScale, minVisualDepthPx, maxVisualDepthPx]
    norm_num
  · have := (depthScale_mem d).1
    simp only [deepDepthY]; linarith
  · have := (depthScale_mem d).2
    simp only [deepDepthY]; linarith

/-- C9 witness: depth 5 saturates to 30 px, depth 100 saturates to 95 px, and
the resulting `deepDepthY` values stay in range. -/
theorem C9_witness :
    depthScale 5 = 30 ∧ depthScale 100 = 95 ∧
      seaLevel + 30 ≤ deepDepthY 5 ∧ deepDepthY 100 ≤ seaLevel + 95 :=
  ⟨(C9_depthScale_saturates 5).1 (by norm_num),
    (C9_depthScale_saturates 100).2.1 (by norm_num),
    (C9_depthScale_saturates 5).2.2.2.2.1,
    (C9_depthScale_saturates 100).2.2.2.2.2⟩

end Tsunami
